import Mathlib

/-!
Shallow embedding of the `epub_ocr` service (files `epub_processor.py` and
`main.py`) and proofs about its specification.

External collaborators (the EPUB parser `ebooklib`, the HTML tag stripper
`BeautifulSoup`, the image codec `PIL`, the OCR engine `PaddleOCR`, and the
raw ZIP reader `zipfile`) are modelled as function parameters; a call that
can raise a Python exception is modelled as returning `Except Err _`.
-/

/-- Python exception payloads are abstracted to their message. -/
abbrev Err := String

/-- Raw bytes of an archive entry (`zip_file.read(...)`); the payload is
opaque to the pipeline, so it is carried as a string. -/
abbrev ByteData := String

/-- A decoded `PIL.Image`: the code reads only its `mode` (colour model);
`data` carries the pixel payload opaquely. -/
structure Img where
  mode : String
  data : ByteData
deriving DecidableEq

/-- One line of the OCR engine's raw result, Python shape
`[geometry, (text, confidence)]`: a sequence of cells of which the code reads
only `line[1][0]` (after checking `len(line) > 1`).  Since no other component
of any cell is ever read, every cell is carried in the same
`(text, confidence)` shape; the geometry cell at index 0 is never inspected. -/
abbrev OcrLine := List (String × Int)

/-- The raw value returned by `self.ocr.ocr(img_array, cls=True)`: `None` or a
list of per-image line groups, each group `None` or a list of lines. -/
abbrev OcrRaw := Option (List (Option (List OcrLine)))

/-- The raw ZIP view of the archive (`zipfile.ZipFile`): the entry-name
listing (`namelist()`) and the per-entry byte reader (`read`, which can
raise). -/
structure ZipFile where
  names : List String
  readEntry : String → Except Err ByteData

/-- One item of the parsed book (`book.get_items()`): its `get_type()` tag and
its `get_content()` markup payload. -/
structure BookItem where
  itemType : Nat
  content : String
deriving DecidableEq

/-- The parsed book structure produced by `epub.read_epub`. -/
structure Book where
  items : List BookItem
deriving DecidableEq

/-- The `ebooklib.ITEM_DOCUMENT` type tag (value 9 in ebooklib). -/
def ITEM_DOCUMENT : Nat := 9

/-- The external image/OCR collaborators used by the pipeline:
`decode` is `PIL.Image.open` on in-memory bytes, `convertRGB` is
`image.convert('RGB')`, and `engine` is `np.array(image)` followed by
`self.ocr.ocr(img_array, cls=True)` (any exception of those two steps is the
`.error` case). -/
structure OcrEnv where
  decode : ByteData → Except Err Img
  convertRGB : Img → Except Err Img
  engine : Img → Except Err OcrRaw

/-- `EPUBProcessor.__init__`: `ThreadPoolExecutor(max_workers=4)`. -/
def max_workers : Nat := 4

/-- `EPUBProcessor._extract_text_content`: walk `book.get_items()`, keep items
whose type is `ITEM_DOCUMENT`, strip their markup with the external
`htmlToText` (modelling `BeautifulSoup(...).get_text(separator=' ',
strip=True)`, a total tag stripper), keep the non-empty results and join them
with a blank line. -/
def extract_text_content (book : Book) (htmlToText : String → String) : String :=
  let text_parts := book.items.foldl (fun text_parts item =>
    if item.itemType = ITEM_DOCUMENT then
      let text := htmlToText item.content
      if text ≠ "" then text_parts ++ [text] else text_parts
    else text_parts) []
  String.intercalate "\n\n" text_parts

/-- Python `str.lower()`: lowercase the characters one by one (the entry names
and suffixes at issue are ASCII, where `Char.toLower` agrees with Python). -/
def lower_string (s : String) : String := String.mk (s.data.map Char.toLower)

/-- Python `str.endswith(post)`: the characters of `post` are a suffix of the
characters of `s`. -/
def ends_with (s post : String) : Bool := post.data.isSuffixOf s.data

/-- The image-entry test of `_extract_image_text`:
`f.lower().endswith(('.png', '.jpg', '.jpeg', '.gif', '.bmp'))` (`endswith` on
a tuple succeeds when any of the suffixes matches). -/
def is_image_name (f : String) : Bool :=
  ends_with (lower_string f) ".png" || ends_with (lower_string f) ".jpg" ||
    ends_with (lower_string f) ".jpeg" || ends_with (lower_string f) ".gif" ||
    ends_with (lower_string f) ".bmp"

/-- The text cell of a raw OCR line: `line[1][0]`.  The default is irrelevant:
it is only read at lines with `len(line) > 1`. -/
def line_text (line : OcrLine) : String := (line.getD 1 ("", 0)).1

/-- `EPUBProcessor._run_ocr` after the engine call: `engineResult` is the
outcome of `np.array(image)` plus `self.ocr.ocr(img_array, cls=True)` (the
`.error` case is an exception there, caught by the surrounding
`try`/`except`, which returns `""`).  Then `if not result or not result[0]:
return ""`, and otherwise the loop `for line in result[0]` keeps `line[1][0]`
for every `line` with `line and len(line) > 1` (for a list, truthiness is
implied by `len(line) > 1`) and joins with single spaces. -/
def run_ocr (engineResult : Except Err OcrRaw) : String :=
  match engineResult with
  | .error _ => ""
  | .ok none => ""
  | .ok (some []) => ""
  | .ok (some (none :: _)) => ""
  | .ok (some (some [] :: _)) => ""
  | .ok (some (some (l :: ls) :: _)) =>
    let text_parts := (l :: ls).foldl
      (fun text_parts line =>
        if 1 < line.length then text_parts ++ [line_text line] else text_parts) []
    String.intercalate " " text_parts

/-- `EPUBProcessor._process_image_from_zip` as one gathered task: read the
entry's bytes, decode them, convert to RGB when the mode differs, and run
`_run_ocr` on the worker pool.  The function's single `try`/`except` catches a
failure at any stage and returns `""`; that catch is modelled by mapping each
stage's `.error` to `.ok ""`.  The result type is `Except Err String` because
`asyncio.gather(..., return_exceptions=True)` would hand an escaping
exception to the caller as a value; the catch makes that impossible. -/
def process_image_from_zip (zf : ZipFile) (env : OcrEnv) (image_file : String) :
    Except Err String :=
  match zf.readEntry image_file with
  | .error _ => .ok ""
  | .ok image_data =>
    match env.decode image_data with
    | .error _ => .ok ""
    | .ok image0 =>
      match (if image0.mode ≠ "RGB" then env.convertRGB image0 else .ok image0) with
      | .error _ => .ok ""
      | .ok image => .ok (run_ocr (env.engine image))

/-- The result-collection loop of `_extract_image_text`: keep a gathered
result when it is a non-empty string (`isinstance(result, str) and result`);
an exception value is only logged (`elif isinstance(result, Exception)`). -/
def collect_results (results : List (Except Err String)) : List String :=
  results.foldl (fun image_texts result =>
    match result with
    | .ok s => if s ≠ "" then image_texts ++ [s] else image_texts
    | .error _ => image_texts) []

/-- `asyncio.gather` over the per-image tasks: as each task completes (in
`completionOrder`, a permutation of the task indices) its result is stored in
the slot of the task's own index, and the slots are returned in task order.
The filler `.ok ""` is never returned for a completed schedule. -/
def gather_sched (tasks : List (Except Err String)) (completionOrder : List Nat) :
    List (Except Err String) :=
  completionOrder.foldl (fun slots i => slots.set i (tasks.getD i (.ok "")))
    (List.replicate tasks.length (.ok ""))

/-- `EPUBProcessor._extract_image_text`: open the raw ZIP view (`zipOpen` is
the outcome of `zipfile.ZipFile(epub_path, 'r')`), filter the name listing to
image entries, return `""` when there are none, otherwise gather the
per-image tasks and join the collected non-empty results with blank lines.
The surrounding `try`/`except` catches a failure to open the container and
falls through to joining the still-empty list, returning `""`. -/
def extract_image_text (zipOpen : Except Err ZipFile) (env : OcrEnv)
    (completionOrder : List Nat) : String :=
  match zipOpen with
  | .error _ => ""
  | .ok zip_file =>
    let image_files := zip_file.names.filter is_image_name
    if image_files.isEmpty then ""
    else
      let tasks := image_files.map (process_image_from_zip zip_file env)
      let results := gather_sched tasks completionOrder
      String.intercalate "\n\n" (collect_results results)

/-- `EPUBProcessor.extract_text`: parse the archive (`parse` is the outcome of
`epub.read_epub(epub_path)`), collect the markup text and the image text,
append each to `all_text` only when non-empty, and join with a blank line.
The `try`/`except` logs and re-raises, so a parse failure propagates
unchanged; the two collection steps are total. -/
def extract_text (parse : Except Err Book) (htmlToText : String → String)
    (zipOpen : Except Err ZipFile) (env : OcrEnv)
    (completionOrder : List Nat) : Except Err String :=
  match parse with
  | .error e => .error e
  | .ok book =>
    let text_content := extract_text_content book htmlToText
    let image_text := extract_image_text zipOpen env completionOrder
    let all_text :=
      (if text_content ≠ "" then [text_content] else []) ++
        (if image_text ≠ "" then [image_text] else [])
    .ok (String.intercalate "\n\n" all_text)

/-- The outcome of one `upload_epub` request: the HTTP status produced (200 on
success, the `HTTPException` status otherwise), whether the temporary file is
still on disk when the handler exits, and the extracted text of a success
response. -/
structure UploadResult where
  status : Nat
  tempFileRemains : Bool
  text : Option String
deriving DecidableEq

/-- The `upload_epub` handler of `main.py`.  `createOk` is the outcome of
`tempfile.NamedTemporaryFile(delete=False, ...)` (on failure no file is
created); `copyOk` is the outcome of `shutil.copyfileobj(file.file,
temp_file)`; `extractRes` is the outcome of `epub_processor.extract_text`.
`temp_path` is assigned only after the copy completes, so the `except`
branch's `if 'temp_path' in locals(): os.unlink(temp_path)` cleans up exactly
when the copy succeeded; a copy failure leaves the already-created file on
disk. -/
def upload_epub (filename : String) (size : Nat) (createOk : Bool)
    (copyOk : Bool) (extractRes : Except Err String) : UploadResult :=
  if ¬ (ends_with (lower_string filename) ".epub") then ⟨400, false, none⟩
  else if 50 * 1024 * 1024 < size then ⟨413, false, none⟩
  else if createOk = false then ⟨500, false, none⟩
  else if copyOk = false then ⟨500, true, none⟩
  else
    match extractRes with
    | .ok extracted_text => ⟨200, false, some extracted_text⟩
    | .error _ => ⟨500, false, none⟩

/-- Who executes a pipeline step: the coordinating asyncio task, or a worker
of the `ThreadPoolExecutor`. -/
inductive Actor where
  | coordinator
  | pool
deriving DecidableEq

/-- The observable steps of `_process_image_from_zip` for one image entry. -/
inductive PipelineStep where
  | readEntry
  | decodeImage
  | convertImage
  | recognize
deriving DecidableEq

/-- The steps `_process_image_from_zip` performs for one entry, each tagged
with its executing actor: the byte read, the decode and the RGB conversion run
on the coordinating task; the OCR recognition (`self._run_ocr`) is handed to
the worker pool by `loop.run_in_executor(self.executor, self._run_ocr,
image)`.  A stage that raises ends the step sequence (the `except` returns). -/
def process_image_steps (zf : ZipFile) (env : OcrEnv) (image_file : String) :
    List (Actor × PipelineStep) :=
  match zf.readEntry image_file with
  | .error _ => [(.coordinator, .readEntry)]
  | .ok image_data =>
    match env.decode image_data with
    | .error _ => [(.coordinator, .readEntry), (.coordinator, .decodeImage)]
    | .ok image0 =>
      if image0.mode ≠ "RGB" then
        match env.convertRGB image0 with
        | .error _ =>
          [(.coordinator, .readEntry), (.coordinator, .decodeImage),
            (.coordinator, .convertImage)]
        | .ok _ =>
          [(.coordinator, .readEntry), (.coordinator, .decodeImage),
            (.coordinator, .convertImage), (.pool, .recognize)]
      else
        [(.coordinator, .readEntry), (.coordinator, .decodeImage),
          (.pool, .recognize)]

/-- An event of the worker pool: an OCR job starts running on a worker, or a
running job finishes. -/
inductive PoolEvent where
  | start (id : Nat)
  | finish (id : Nat)

/-- The traces the `ThreadPoolExecutor` with bound `maxW` can produce,
together with the set of jobs running after the trace: a job starts only when
fewer than `maxW` jobs are running (otherwise it waits in the queue), and any
running job may finish. -/
inductive PoolTrace (maxW : Nat) : List PoolEvent → List Nat → Prop where
  | nil : PoolTrace maxW [] []
  | start {tr : List PoolEvent} {run : List Nat} {i : Nat} :
      PoolTrace maxW tr run → run.length < maxW →
      PoolTrace maxW (tr ++ [.start i]) (i :: run)
  | finish {tr : List PoolEvent} {run : List Nat} {i : Nat} :
      PoolTrace maxW tr run → i ∈ run →
      PoolTrace maxW (tr ++ [.finish i]) (run.erase i)

/-! Concrete instances used by the witness theorems. -/

/-- A tag stripper for witnesses: the identity. -/
def htmlW : String → String := id

/-- A collaborator bundle for witnesses: decoding always succeeds with an RGB
image carrying the bytes, and the engine recognises one line whose text is the
image payload. -/
def envW : OcrEnv where
  decode := fun d => .ok ⟨"RGB", d⟩
  convertRGB := fun i => .ok i
  engine := fun img => .ok (some [some [[("geom", 0), (img.data, 1)]]])

/-- An archive with two image entries and one non-image entry; reading an
entry returns its own name as payload. -/
def zfW : ZipFile := ⟨["a.png", "b.txt", "c.jpg"], fun f => .ok f⟩

/-- An archive with no image entries. -/
def zfNoImages : ZipFile := ⟨["ch1.xhtml", "style.css"], fun f => .ok f⟩

/-- An archive whose entry reads always fail. -/
def zfReadFail : ZipFile := ⟨["a.png"], fun _ => .error "read failed"⟩

/-- A parsed book with one document item and one non-document item. -/
def bookW : Book := ⟨[⟨ITEM_DOCUMENT, "hello"⟩, ⟨1, "styles"⟩]⟩

/-! Helper lemmas. -/

/-- The text-collection loop of `_run_ocr` appends, to its accumulator, the
text of each sufficiently long line in order. -/
theorem run_ocr_foldl (l : List OcrLine) (init : List String)
    (h : ∀ line ∈ l, 1 < line.length) :
    l.foldl (fun text_parts line =>
        if 1 < line.length then text_parts ++ [line_text line] else text_parts)
        init = init ++ l.map line_text := by
  induction l generalizing init with
  | nil => simp
  | cons x xs ih =>
    have hx : 1 < x.length := h x (by simp)
    simp only [List.foldl_cons, if_pos hx, List.map_cons]
    rw [ih _ (fun a ha => h a (by simp [ha]))]
    simp

/-- `_process_image_from_zip` never hands an exception to `asyncio.gather`:
whatever the stage outcomes, it returns a string. -/
theorem process_image_from_zip_ok (zf : ZipFile) (env : OcrEnv)
    (image_file : String) :
    ∃ s : String, process_image_from_zip zf env image_file = .ok s := by
  rcases h1 : zf.readEntry image_file with e | d
  · exact ⟨"", by simp [process_image_from_zip, h1]⟩
  · rcases h2 : env.decode d with e | img
    · exact ⟨"", by simp [process_image_from_zip, h1, h2]⟩
    · rcases h3 : (if img.mode ≠ "RGB" then env.convertRGB img else .ok img)
        with e | img2
      · exact ⟨"", by simp [process_image_from_zip, h1, h2, h3]⟩
      · exact ⟨run_ocr (env.engine img2),
          by simp [process_image_from_zip, h1, h2, h3]⟩

/-- String intercalation over a singleton. -/
theorem intercalate_single (s a : String) : String.intercalate s [a] = a := rfl

/-- String intercalation over a pair. -/
theorem intercalate_pair (s a b : String) :
    String.intercalate s [a, b] = a ++ s ++ b := rfl

/-- Slot contents after part of the gather schedule has run: a slot whose
index has completed holds its task's result; an untouched slot keeps the
accumulator's value. -/
theorem gather_sched_slots (tasks : List (Except Err String))
    (order : List Nat) (acc : List (Except Err String))
    (hlen : acc.length = tasks.length) (j : Nat) :
    (order.foldl (fun slots i => slots.set i (tasks.getD i (.ok ""))) acc)[j]? =
      if j ∈ order ∧ j < tasks.length then tasks[j]? else acc[j]? := by
  induction order generalizing acc with
  | nil => simp
  | cons i rest ih =>
    rw [List.foldl_cons, ih _ (by simp [hlen])]
    by_cases hjr : j ∈ rest ∧ j < tasks.length
    · simp [hjr, hjr.1, hjr.2, List.mem_cons]
    · by_cases hij : i = j
      · subst hij
        by_cases hi : i < tasks.length
        · rw [if_neg hjr, if_pos ⟨List.mem_cons_self i rest, hi⟩,
            List.getElem?_set_eq_of_lt _ (hlen ▸ hi),
            List.getD_eq_getElem?_getD, List.getElem?_eq_getElem hi]
          rfl
        · rw [if_neg hjr, if_neg (by simp [hi]),
            List.getElem?_set_self', List.getElem?_eq_none (hlen ▸ Nat.le_of_not_lt hi)]
          rfl
      · rw [if_neg hjr, List.getElem?_set_ne hij]
        have : ¬ (j ∈ i :: rest ∧ j < tasks.length) := by
          rintro ⟨hmem, hlt⟩
          rcases List.mem_cons.mp hmem with h | h
          · exact hij h.symm
          · exact hjr ⟨h, hlt⟩
        rw [if_neg this]

/-- When every task index completes exactly once (the completion order is a
permutation of the indices), the gathered slots are the task results in task
order, whatever the completion order was. -/
theorem gather_sched_perm (tasks : List (Except Err String)) (order : List Nat)
    (h : order.Perm (List.range tasks.length)) :
    gather_sched tasks order = tasks := by
  have hmem : ∀ j, j ∈ order ↔ j < tasks.length := by
    intro j
    rw [h.mem_iff, List.mem_range]
  apply List.ext_getElem?
  intro j
  rw [gather_sched, gather_sched_slots _ _ _ (by simp) j]
  by_cases hj : j < tasks.length
  · rw [if_pos ⟨(hmem j).mpr hj, hj⟩]
  · have hnot : j ∉ order := fun hin => hj ((hmem j).mp hin)
    have hle : tasks.length ≤ j := Nat.le_of_not_lt hj
    rw [if_neg (by simp [hnot]), List.getElem?_eq_none (by simpa using hle),
      List.getElem?_eq_none hle]

/-- C5: for every path that cannot be opened as a valid ZIP container, the
parallel image pipeline catches the failure at its own boundary and returns
the empty string rather than propagating the exception: archive-level
corruption degrades to an empty image block instead of failing extraction. -/
theorem extract_image_text_bad_container (e : Err) (env : OcrEnv)
    (completionOrder : List Nat) :
    extract_image_text (.error e) env completionOrder = "" := rfl

/-- C6: the image classifier selects exactly the ordered subset of entry
names that case-insensitively end in `.png`, `.jpg`, `.jpeg`, `.gif` or
`.bmp`; an empty listing or no matches give an empty result (not an error),
and the listing `[a.PNG, b.txt, c.JPG, d.css]` classifies exactly
`[a.PNG, c.JPG]`. -/
theorem image_classifier_spec :
    (∀ names : List String, (names.filter is_image_name).Sublist names)
    ∧ (∀ (names : List String) (f : String),
        f ∈ names.filter is_image_name ↔
          f ∈ names ∧ ∃ ext ∈ [".png", ".jpg", ".jpeg", ".gif", ".bmp"],
            ends_with (lower_string f) ext = true)
    ∧ List.filter is_image_name [] = []
    ∧ List.filter is_image_name ["a.PNG", "b.txt", "c.JPG", "d.css"]
        = ["a.PNG", "c.JPG"] := by
  refine ⟨fun names => List.filter_sublist _, fun names f => ?_, rfl, by decide⟩
  rw [List.mem_filter]
  simp only [is_image_name, Bool.or_eq_true, List.mem_cons, List.not_mem_nil,
    or_false, exists_eq_or_imp, exists_eq_left]
  tauto

/-- C7: `_run_ocr` extracts exactly the text field of each returned line, in
the order the engine returned them, and joins them with single spaces; an
engine result that is `None`, an empty outer sequence, or whose first line
group is `None` or empty gives the empty string rather than an error. -/
theorem run_ocr_line_extraction (lines : List OcrLine)
    (h : ∀ line ∈ lines, 1 < line.length) :
    run_ocr (.ok (some [some lines])) =
      String.intercalate " " (lines.map line_text)
    ∧ run_ocr (.ok none) = ""
    ∧ run_ocr (.ok (some [])) = ""
    ∧ run_ocr (.ok (some [none])) = ""
    ∧ run_ocr (.ok (some [some []])) = "" := by
  refine ⟨?_, rfl, rfl, rfl, rfl⟩
  cases lines with
  | nil => rfl
  | cons l ls =>
    rw [show run_ocr (.ok (some [some (l :: ls)])) =
        String.intercalate " " ((l :: ls).foldl (fun text_parts line =>
          if 1 < line.length then text_parts ++ [line_text line] else
            text_parts) []) from rfl,
      run_ocr_foldl _ _ h, List.nil_append]

/-- The engine result of the spec's concrete scenario: two recognised lines,
`Sample OCR text` and `More OCR text`. -/
def linesW : List OcrLine :=
  [[("geom", 0), ("Sample OCR text", 1)], [("geom", 0), ("More OCR text", 1)]]

/-- The line-extraction theorem applied to the concrete two-line engine
result from the spec. -/
theorem run_ocr_line_extraction_witness :
    run_ocr (.ok (some [some linesW])) =
      String.intercalate " " (linesW.map line_text) :=
  (run_ocr_line_extraction linesW (by decide)).1

/-- C4: the per-image OCR worker never raises: whatever the stage outcomes it
returns a string, and any exception at the byte-read, decode, RGB-convert or
recognise stage is caught and converted to an empty-string result, so one
unreadable image contributes no text but never fails the batch. -/
theorem process_image_absorbs_failures (zf : ZipFile) (env : OcrEnv)
    (image_file : String) :
    (∃ s : String, process_image_from_zip zf env image_file = .ok s)
    ∧ (∀ e, zf.readEntry image_file = .error e →
        process_image_from_zip zf env image_file = .ok "")
    ∧ (∀ d e, zf.readEntry image_file = .ok d → env.decode d = .error e →
        process_image_from_zip zf env image_file = .ok "")
    ∧ (∀ d img e, zf.readEntry image_file = .ok d → env.decode d = .ok img →
        img.mode ≠ "RGB" → env.convertRGB img = .error e →
        process_image_from_zip zf env image_file = .ok "")
    ∧ (∀ d img img2 e, zf.readEntry image_file = .ok d →
        env.decode d = .ok img →
        (if img.mode ≠ "RGB" then env.convertRGB img else .ok img) = .ok img2 →
        env.engine img2 = .error e →
        process_image_from_zip zf env image_file = .ok "") := by
  refine ⟨process_image_from_zip_ok zf env image_file, ?_, ?_, ?_, ?_⟩
  · intro e h1
    simp [process_image_from_zip, h1]
  · intro d e h1 h2
    simp [process_image_from_zip, h1, h2]
  · intro d img e h1 h2 hmode h3
    simp [process_image_from_zip, h1, h2, hmode, h3]
  · intro d img img2 e h1 h2 h3 h4
    simp [process_image_from_zip, h1, h2, h3, h4, run_ocr]

/-- The absorb-failures theorem applied to an archive whose entry reads
fail. -/
theorem process_image_absorbs_failures_witness :
    process_image_from_zip zfReadFail envW "a.png" = .ok "" :=
  (process_image_absorbs_failures zfReadFail envW "a.png").2.1 "read failed" rfl

/-- C10: although the gather is configured to return exceptions, no gathered
per-image result is ever an exception object: every per-image task catches
all exceptions and returns a string, so the branch of the collection loop
that handles an exception value is unreachable. -/
theorem gathered_results_never_exception (zf : ZipFile) (env : OcrEnv) :
    ∀ r ∈ (zf.names.filter is_image_name).map (process_image_from_zip zf env),
      ∃ s : String, r = .ok s := by
  intro r hr
  rcases List.mem_map.mp hr with ⟨f, hf, rfl⟩
  exact process_image_from_zip_ok zf env f

/-- The no-exception theorem applied to the first gathered result of the
concrete archive. -/
theorem gathered_results_never_exception_witness :
    ∃ s : String, process_image_from_zip zfW envW "a.png" = .ok s :=
  gathered_results_never_exception zfW envW _
    (List.mem_map_of_mem _ (by decide))

/-- C9: the CPU-bound recognition step never runs on the coordinating task —
every recognise step of a per-image task is executed by the worker pool — and
a pool with `max_workers` slots never has more than four OCR invocations
running at once. -/
theorem ocr_on_bounded_pool :
    (∀ (zf : ZipFile) (env : OcrEnv) (image_file : String)
        (p : Actor × PipelineStep),
        p ∈ process_image_steps zf env image_file →
        p.2 = PipelineStep.recognize → p.1 = Actor.pool)
    ∧ (∀ (tr : List PoolEvent) (run : List Nat),
        PoolTrace max_workers tr run → run.length ≤ 4) := by
  constructor
  · intro zf env image_file p hp hrec
    rcases h1 : zf.readEntry image_file with e | d
    · simp [process_image_steps, h1] at hp
      subst hp
      simp at hrec
    · rcases h2 : env.decode d with e | img0
      · simp [process_image_steps, h1, h2] at hp
        rcases hp with rfl | rfl <;> simp at hrec
      · by_cases hm : img0.mode = "RGB"
        · simp [process_image_steps, h1, h2, hm] at hp
          rcases hp with rfl | rfl | rfl
          · simp at hrec
          · simp at hrec
          · rfl
        · rcases h3 : env.convertRGB img0 with e | img
          · simp [process_image_steps, h1, h2, hm, h3] at hp
            rcases hp with rfl | rfl | rfl <;> simp at hrec
          · simp [process_image_steps, h1, h2, hm, h3] at hp
            rcases hp with rfl | rfl | rfl | rfl
            · simp at hrec
            · simp at hrec
            · simp at hrec
            · rfl
  · intro tr run h
    induction h with
    | nil => simp
    | start _ hlt _ =>
      have h4 : _ < 4 := hlt
      simp only [List.length_cons]
      omega
    | finish _ _ ih =>
      exact le_trans (List.Sublist.length_le (List.erase_sublist _ _)) ih

/-- The pool theorem applied to a concrete entry's step sequence and to a
one-start pool trace. -/
theorem ocr_on_bounded_pool_witness :
    ((Actor.pool, PipelineStep.recognize) ∈ process_image_steps zfW envW "a.png"
      ∧ (Actor.pool, PipelineStep.recognize).1 = Actor.pool)
    ∧ ([0] : List Nat).length ≤ 4 :=
  ⟨⟨by decide, ocr_on_bounded_pool.1 zfW envW "a.png" _ (by decide) rfl⟩,
    ocr_on_bounded_pool.2 [PoolEvent.start 0] [0]
      (PoolTrace.start PoolTrace.nil (by decide))⟩

/-- C3: the non-empty OCR results in the joined image block appear in the
order the image entries occur in the archive's name listing, regardless of
the order in which the per-image tasks complete: for every completion order
that is a permutation of the task indices, the gathered-and-joined block
equals the join over the task results in archive order. -/
theorem extract_image_text_archive_order (zf : ZipFile) (env : OcrEnv)
    (completionOrder : List Nat)
    (h : completionOrder.Perm
      (List.range ((zf.names.filter is_image_name).length))) :
    extract_image_text (.ok zf) env completionOrder =
      String.intercalate "\n\n"
        (collect_results ((zf.names.filter is_image_name).map
          (process_image_from_zip zf env))) := by
  by_cases he : (zf.names.filter is_image_name).isEmpty
  · rw [List.isEmpty_iff] at he
    simp [extract_image_text, he, collect_results, String.intercalate]
  · have htasks :
        gather_sched ((zf.names.filter is_image_name).map
            (process_image_from_zip zf env)) completionOrder =
          (zf.names.filter is_image_name).map (process_image_from_zip zf env) :=
      gather_sched_perm _ _ (by simpa using h)
    simp [extract_image_text, he, htasks]

/-- The ordering theorem applied to the concrete archive, with the completion
order reversed relative to archive order. -/
theorem extract_image_text_archive_order_witness :
    extract_image_text (.ok zfW) envW [1, 0] =
      String.intercalate "\n\n"
        (collect_results ((zfW.names.filter is_image_name).map
          (process_image_from_zip zfW envW))) :=
  extract_image_text_archive_order zfW envW [1, 0] (by decide)

/-- C1: the transcript returned by `extract_text` is the markup-text block
followed by the image-text block joined with a blank-line separator, a block
contributing no text being entirely omitted (no separator is emitted when
either block is empty); an archive whose listing has no image entries yields
exactly the markup text. -/
theorem extract_text_transcript (book : Book) (htmlToText : String → String)
    (zipOpen : Except Err ZipFile) (env : OcrEnv) (completionOrder : List Nat) :
    (extract_text (.ok book) htmlToText zipOpen env completionOrder =
      .ok (if extract_text_content book htmlToText = "" then
            extract_image_text zipOpen env completionOrder
          else if extract_image_text zipOpen env completionOrder = "" then
            extract_text_content book htmlToText
          else
            extract_text_content book htmlToText ++ "\n\n" ++
              extract_image_text zipOpen env completionOrder))
    ∧ (∀ zf : ZipFile, zipOpen = .ok zf →
        zf.names.filter is_image_name = [] →
        extract_text (.ok book) htmlToText zipOpen env completionOrder =
          .ok (extract_text_content book htmlToText)) := by
  constructor
  · by_cases h1 : extract_text_content book htmlToText = "" <;>
      by_cases h2 : extract_image_text zipOpen env completionOrder = "" <;>
        simp [extract_text, h1, h2, String.intercalate, String.intercalate.go]
  · rintro zf rfl hf
    have himg : extract_image_text (.ok zf) env completionOrder = "" := by
      simp [extract_image_text, hf]
    by_cases h1 : extract_text_content book htmlToText = "" <;>
      simp [extract_text, h1, himg, String.intercalate, String.intercalate.go]

/-- The transcript theorem applied to a concrete book over an archive with no
image entries. -/
theorem extract_text_transcript_witness :
    extract_text (.ok bookW) htmlW (.ok zfNoImages) envW [] =
      .ok (extract_text_content bookW htmlW) :=
  (extract_text_transcript bookW htmlW (.ok zfNoImages) envW []).2
    zfNoImages rfl (by decide)

/-- C2: extraction fails exactly when parsing the archive into the book
structure fails: a parse failure's exception propagates unchanged to the
caller, and for every successfully parsed book the markup collection and the
image pipeline are total, so extraction returns a string. -/
theorem extract_text_error_iff_parse (parse : Except Err Book)
    (htmlToText : String → String) (zipOpen : Except Err ZipFile)
    (env : OcrEnv) (completionOrder : List Nat) :
    (∀ e : Err, parse = .error e →
      extract_text parse htmlToText zipOpen env completionOrder = .error e)
    ∧ (∀ book : Book, parse = .ok book →
      ∃ s : String,
        extract_text parse htmlToText zipOpen env completionOrder = .ok s) := by
  constructor
  · rintro e rfl
    rfl
  · rintro book rfl
    exact ⟨_, rfl⟩

/-- The parse-failure theorem applied to a failing parse. -/
theorem extract_text_error_iff_parse_witness :
    extract_text (.error "bad epub") htmlW (.ok zfW) envW [] =
      .error "bad epub" :=
  (extract_text_error_iff_parse (.error "bad epub") htmlW (.ok zfW) envW []).1
    "bad epub" rfl

/-- C8 counterexample: an accepted upload whose copy into the temporary file
raises leaves the temporary file behind — `temp_path` is assigned only after
the copy, so the handler's `if 'temp_path' in locals()` cleanup is skipped on
this exit path. -/
theorem upload_epub_temp_leak :
    (upload_epub "book.epub" 1000 true false (.ok "text")).tempFileRemains
      = true := by decide

/-- C8 amended: the temporary file is removed on every exit path on which the
copy into it completed (successful extraction as well as a later failure),
and no file exists when creating the temporary file itself fails; only a
failure of the copy step, after creation and before `temp_path` is assigned,
leaves the file behind. -/
theorem upload_epub_cleanup (filename : String) (size : Nat)
    (createOk copyOk : Bool) (extractRes : Except Err String) :
    (copyOk = true →
      (upload_epub filename size createOk copyOk extractRes).tempFileRemains
        = false)
    ∧ (createOk = false →
      (upload_epub filename size createOk copyOk extractRes).tempFileRemains
        = false) := by
  constructor <;> rintro rfl <;> unfold upload_epub <;>
    rcases extractRes with e | t <;> split_ifs <;> simp_all

/-- The cleanup theorem applied to an accepted upload whose extraction
fails. -/
theorem upload_epub_cleanup_witness :
    (upload_epub "book.epub" 1000 true true
      (.error "parse failed")).tempFileRemains = false :=
  (upload_epub_cleanup "book.epub" 1000 true true (.error "parse failed")).1
    rfl
